import Mathlib

/-!
A verification development for the raycrypt repository (ChaCha20 / XChaCha20
AEAD composition and X25519 key agreement).  Bytes are represented as `Nat`
values, byte strings as `List Nat`, and 32-bit machine arithmetic is written
with explicit `% 2 ^ 32` reductions.  The Poly1305 MAC engine and the
prime-field element type are collaborators whose sources are not part of the
repository; they are modelled from the specification where needed.
-/

set_option maxRecDepth 1000000

namespace Raycrypt

/-- Number of ChaCha rounds (`const ROUNDS: usize = 20`). -/
def ROUNDS : Nat := 20

/-- Embeds `u32::rotate_left` on a 32-bit value. -/
def rotl32 (x n : Nat) : Nat := ((x <<< n) % 2 ^ 32) ||| (x >>> (32 - n))

/-- Embeds `from_le_bytes`: reads the first four bytes of a slice as a
little-endian 32-bit word (missing bytes default to 0). -/
def from_le_bytes (x : List Nat) : Nat :=
  x.getD 0 0 + 2 ^ 8 * x.getD 1 0 + 2 ^ 16 * x.getD 2 0 + 2 ^ 24 * x.getD 3 0

/-- Little-endian serialization of a value into `n` bytes
(`u32::to_le_bytes` is `toLeBytes 4`, and the `u64` length fields use
`toLeBytes 8`). -/
def toLeBytes : Nat → Nat → List Nat
  | 0, _ => []
  | n + 1, x => x % 256 :: toLeBytes n (x / 256)

/-- Embeds `quarter_round`: the in-place quarter round on four slots of the
16-word state (wrapping 32-bit additions, xors, and the 16/12/8/7 rotations). -/
def quarter_round (a b c d : Nat) (block : List Nat) : List Nat :=
  let block := block.set a ((block.getD a 0 + block.getD b 0) % 2 ^ 32)
  let block := block.set d (rotl32 (block.getD d 0 ^^^ block.getD a 0) 16)
  let block := block.set c ((block.getD c 0 + block.getD d 0) % 2 ^ 32)
  let block := block.set b (rotl32 (block.getD b 0 ^^^ block.getD c 0) 12)
  let block := block.set a ((block.getD a 0 + block.getD b 0) % 2 ^ 32)
  let block := block.set d (rotl32 (block.getD d 0 ^^^ block.getD a 0) 8)
  let block := block.set c ((block.getD c 0 + block.getD d 0) % 2 ^ 32)
  let block := block.set b (rotl32 (block.getD b 0 ^^^ block.getD c 0) 7)
  block

/-- Embeds `double_round`: the four column quarter rounds followed by the four
diagonal quarter rounds. -/
def double_round (block : List Nat) : List Nat :=
  let block := quarter_round 0 4 8 12 block
  let block := quarter_round 1 5 9 13 block
  let block := quarter_round 2 6 10 14 block
  let block := quarter_round 3 7 11 15 block
  let block := quarter_round 0 5 10 15 block
  let block := quarter_round 1 6 11 12 block
  let block := quarter_round 2 7 8 13 block
  let block := quarter_round 3 4 9 14 block
  block

/-- Embeds `ChaCha20::keystream`: build the 16-word state (constants, key
words, counter, nonce words), run `ROUNDS / 2` double rounds, add the working
state to the input state word-wise mod 2^32, and serialize little-endian.
Slice arguments `&key[a..b]` are embedded as `key.drop a` (the reader
`from_le_bytes` touches only the first four bytes). -/
def ChaCha20.keystream (key nonce : List Nat) (counter : Nat) : List Nat :=
  let state : List Nat := [
    0x61707865, 0x3320646e, 0x79622d32, 0x6b206574,
    from_le_bytes key, from_le_bytes (key.drop 4),
    from_le_bytes (key.drop 8), from_le_bytes (key.drop 12),
    from_le_bytes (key.drop 16), from_le_bytes (key.drop 20),
    from_le_bytes (key.drop 24), from_le_bytes (key.drop 28),
    counter,
    from_le_bytes nonce, from_le_bytes (nonce.drop 4),
    from_le_bytes (nonce.drop 8)]
  let working_state := double_round^[ROUNDS / 2] state
  (List.zipWith (fun a b => (a + b) % 2 ^ 32) state working_state).flatMap
    (toLeBytes 4)

/-- Embeds the body of the loop of `ChaCha20::encrypt`: the plaintext is
consumed in 64-byte chunks, chunk `i` being xored with the keystream block at
counter `counter + i` (a `u32` addition, which wraps modulo 2^32); the loop
pushes `chunk ^ key` where `chunk` is the keystream byte and `key` the
plaintext byte. -/
def ChaCha20.encryptGo (key nonce : List Nat) (counter : Nat) :
    Nat → List Nat → List Nat
  | _, [] => []
  | i, x :: xs =>
    List.zipWith (fun b k => k ^^^ b) ((x :: xs).take 64)
        (ChaCha20.keystream key nonce ((counter + i) % 2 ^ 32)) ++
      ChaCha20.encryptGo key nonce counter (i + 1) ((x :: xs).drop 64)
  termination_by _ l => l.length
  decreasing_by simp [List.length_drop]; omega

/-- Embeds `ChaCha20::encrypt` (the chunked xor loop starting at index 0). -/
def ChaCha20.encrypt (key plaintext nonce : List Nat) (counter : Nat) :
    List Nat :=
  ChaCha20.encryptGo key nonce counter 0 plaintext

/-- A list of bytes as a little-endian number. -/
def leNum (l : List Nat) : Nat := l.foldr (fun b acc => b + 256 * acc) 0

/-- Zero-pads a byte string on the right to a multiple of 16 bytes. -/
def pad16 (l : List Nat) : List Nat :=
  l ++ List.replicate ((16 - l.length % 16) % 16) 0

/-- Splits a byte string into chunks of at most `n` bytes (`slice::chunks`),
with the list length as structural recursion fuel; for every positive chunk
size (the only size used here is 16) the fuel never runs out, since each step
consumes at least one element. -/
def chunksOfF : Nat → Nat → List Nat → List (List Nat)
  | _, _, [] => []
  | 0, _, _ :: _ => []
  | fuel + 1, n, x :: xs => (x :: xs).take n :: chunksOfF fuel n ((x :: xs).drop n)

/-- `slice::chunks(n)` as a list of chunks. -/
def chunksOf (n : Nat) (l : List Nat) : List (List Nat) :=
  chunksOfF l.length n l

/-- Modelled from the spec: the one-time MAC collaborator
(`crate::poly1305::Poly1305`, whose source file is not in the repository).
The spec describes it as a black box that accumulates authenticated-data and
ciphertext bytes with 16-byte padding semantics, produces a 16-byte tag, and
verifies a tag in constant time; the tag function itself is the standard
Poly1305 one-time MAC (clamped `r`, accumulation modulo 2^130 - 5, final
addition of `s` modulo 2^128), which the repository's RFC 8439 test vectors
pin down.  The state is the 32-byte one-time key plus the bytes absorbed so
far. -/
structure Poly1305 where
  key : List Nat
  acc : List Nat
  deriving DecidableEq

/-- Modelled from the spec: `Poly1305::new` starts with an empty accumulator. -/
def Poly1305.new (key : List Nat) : Poly1305 := ⟨key, []⟩

/-- Modelled from the spec: `Poly1305::update(data, pad)` absorbs `data`,
zero-padded to a multiple of 16 bytes when `pad` is true. -/
def Poly1305.update (p : Poly1305) (data : List Nat) (pad : Bool) : Poly1305 :=
  ⟨p.key, p.acc ++ if pad then pad16 data else data⟩

/-- Modelled from the spec: the Poly1305 tag of a message under a 32-byte
one-time key, per RFC 8439. -/
def poly1305Mac (key msg : List Nat) : List Nat :=
  let r := leNum (key.take 16) &&& 0x0ffffffc0ffffffc0ffffffc0fffffff
  let s := leNum (key.drop 16)
  let p := 2 ^ 130 - 5
  let acc := (chunksOf 16 msg).foldl
    (fun a c => ((a + leNum c + 2 ^ (8 * c.length)) * r) % p) 0
  toLeBytes 16 ((acc + s) % 2 ^ 128)

/-- Modelled from the spec: `Poly1305::tag` of the absorbed byte stream. -/
def Poly1305.tag (p : Poly1305) : List Nat := poly1305Mac p.key p.acc

/-- Modelled from the spec: `Poly1305::verify` compares the computed tag with
the supplied one (a constant-time equality, which as a function is equality). -/
def Poly1305.verify (p : Poly1305) (t : List Nat) : Bool := p.tag == t

/-- The failure modes of `ChaCha20Poly1305::decrypt`: the `text.len() < 17`
assertion error and the MAC mismatch error. -/
inductive DecryptError
  | invalidCiphertext
  | invalidMac
  deriving DecidableEq

instance {ε α : Type} [DecidableEq ε] [DecidableEq α] :
    DecidableEq (Except ε α) := fun x y =>
  match x, y with
  | .ok a, .ok b =>
    if h : a = b then .isTrue (by rw [h]) else .isFalse (by simp [h])
  | .error a, .error b =>
    if h : a = b then .isTrue (by rw [h]) else .isFalse (by simp [h])
  | .ok _, .error _ => .isFalse (by simp)
  | .error _, .ok _ => .isFalse (by simp)

/-- Embeds the `ChaCha20Poly1305` pyclass (a stored key, unvalidated). -/
structure ChaCha20Poly1305 where
  key : List Nat
  deriving DecidableEq

/-- Embeds `ChaCha20Poly1305::new`: the constructor stores the given buffer
without any length check. -/
def ChaCha20Poly1305.new (key : List Nat) : ChaCha20Poly1305 := ⟨key⟩

/-- Embeds `ChaCha20Poly1305::encrypt`: derive the one-time MAC key from
keystream block 0, encrypt with the caller's counter, absorb padded aead and
ciphertext plus the two unpadded 8-byte little-endian lengths, and append the
16-byte tag. -/
def ChaCha20Poly1305.encrypt (self : ChaCha20Poly1305)
    (plaintext nonce aead : List Nat) (counter : Nat) : List Nat :=
  let otk := ChaCha20.keystream self.key nonce 0
  let poly1305_key := otk.take 32
  let poly1305 := Poly1305.new poly1305_key
  let ciphertext := ChaCha20.encrypt self.key plaintext nonce counter
  let poly1305 := poly1305.update aead true
  let poly1305 := poly1305.update ciphertext true
  let poly1305 := poly1305.update (toLeBytes 8 aead.length) false
  let poly1305 := poly1305.update (toLeBytes 8 ciphertext.length) false
  ciphertext ++ poly1305.tag

/-- Embeds `ChaCha20Poly1305::decrypt`: reject inputs shorter than 17 bytes,
split off the 16-byte tag, recompute the tag over aead and ciphertext, and
return the xor-decrypted plaintext only when the tag verifies. -/
def ChaCha20Poly1305.decrypt (self : ChaCha20Poly1305)
    (text nonce aead : List Nat) (counter : Nat) :
    Except DecryptError (List Nat) :=
  if text.length < 17 then .error .invalidCiphertext
  else
    let ciphertext := text.take (text.length - 16)
    let tag := text.drop (text.length - 16)
    let otk := ChaCha20.keystream self.key nonce 0
    let poly1305_key := otk.take 32
    let poly1305 := Poly1305.new poly1305_key
    let plaintext := ChaCha20.encrypt self.key ciphertext nonce counter
    let poly1305 := poly1305.update aead true
    let poly1305 := poly1305.update ciphertext true
    let poly1305 := poly1305.update (toLeBytes 8 aead.length) false
    let poly1305 := poly1305.update (toLeBytes 8 ciphertext.length) false
    if poly1305.verify tag then .ok plaintext
    else .error .invalidMac

/-- Embeds `hchacha20`: the ChaCha state with the 16-byte nonce in words
12 to 15, permuted by `ROUNDS / 2` double rounds; the output serializes the
permuted words 0 to 3 and 12 to 15 only, with no feed-forward addition. -/
def hchacha20 (key nonce : List Nat) : List Nat :=
  let state : List Nat := [
    0x61707865, 0x3320646e, 0x79622d32, 0x6b206574,
    from_le_bytes key, from_le_bytes (key.drop 4),
    from_le_bytes (key.drop 8), from_le_bytes (key.drop 12),
    from_le_bytes (key.drop 16), from_le_bytes (key.drop 20),
    from_le_bytes (key.drop 24), from_le_bytes (key.drop 28),
    from_le_bytes nonce, from_le_bytes (nonce.drop 4),
    from_le_bytes (nonce.drop 8), from_le_bytes (nonce.drop 12)]
  let state := double_round^[ROUNDS / 2] state
  (state.take 4 ++ (state.drop 12).take 4).flatMap (toLeBytes 4)

/-- Embeds the `XChaCha20Poly1305` pyclass (a stored key, unvalidated). -/
structure XChaCha20Poly1305 where
  key : List Nat
  deriving DecidableEq

/-- Embeds `XChaCha20Poly1305::new`: the constructor stores the given buffer
without any length check. -/
def XChaCha20Poly1305.new (key : List Nat) : XChaCha20Poly1305 := ⟨key⟩

/-- Embeds the private method `XChaCha20Poly1305::key` (renamed here because
the field accessor already carries that name): the derived subkey is
`hchacha20` of the first 16 nonce bytes, and the derived ChaCha nonce is 4
zero bytes followed by nonce bytes 16 to 23. -/
def XChaCha20Poly1305.keyPair (self : XChaCha20Poly1305) (nonce : List Nat) :
    List Nat × List Nat :=
  let chacha_nonce := List.replicate 4 0 ++ (nonce.drop 16).take 8
  let subkey := hchacha20 self.key (nonce.take 16)
  (subkey, chacha_nonce)

/-- Embeds `XChaCha20Poly1305::encrypt`: delegate to `ChaCha20Poly1305` with
the derived subkey and nonce. -/
def XChaCha20Poly1305.encrypt (self : XChaCha20Poly1305)
    (plaintext nonce aead : List Nat) (counter : Nat) : List Nat :=
  let pair := self.keyPair nonce
  (ChaCha20Poly1305.new pair.1).encrypt plaintext pair.2 aead counter

/-- Embeds `XChaCha20Poly1305::decrypt`: delegate to `ChaCha20Poly1305` with
the derived subkey and nonce, passing the result through unchanged. -/
def XChaCha20Poly1305.decrypt (self : XChaCha20Poly1305)
    (ciphertext nonce aead : List Nat) (counter : Nat) :
    Except DecryptError (List Nat) :=
  let pair := self.keyPair nonce
  match (ChaCha20Poly1305.new pair.1).decrypt ciphertext pair.2 aead counter with
  | .ok output => .ok output
  | .error e => .error e

/-- The prime 2^255 - 19 of the X25519 base field. -/
def P25519 : Nat := 2 ^ 255 - 19

/-- Fast modular exponentiation (used to make field inversion executable). -/
def powMod (b : Nat) : Nat → Nat → Nat
  | 0, m => 1 % m
  | e + 1, m =>
    let h := powMod (b * b % m) ((e + 1) / 2) m
    if (e + 1) % 2 = 1 then h * b % m else h
  termination_by e _ => e
  decreasing_by omega

/-- Modelled from the spec: the field-arithmetic collaborator
(`crate::ecc::field::FieldElement`, whose source file is not in the
repository): a residue modulo 2^255 - 19 with add, sub, mul, square, mul32,
inversion, constant-time conditional swap, and 32-byte little-endian
(de)serialization with the top bit masked off on decode. -/
structure FieldElement where
  val : Nat
  deriving DecidableEq

/-- Modelled from the spec: the zero field element. -/
def FieldElement.zero : FieldElement := ⟨0⟩

/-- Modelled from the spec: the one field element. -/
def FieldElement.one : FieldElement := ⟨1⟩

/-- Modelled from the spec: decode 32 little-endian bytes with the top bit
masked off. -/
def FieldElement.from_bytes (p : List Nat) : FieldElement :=
  ⟨leNum (p.take 32) % 2 ^ 255⟩

/-- Modelled from the spec: encode as 32 little-endian bytes (fully reduced). -/
def FieldElement.to_bytes (a : FieldElement) : List Nat :=
  toLeBytes 32 (a.val % P25519)

/-- Modelled from the spec: field addition. -/
def FieldElement.add (a b : FieldElement) : FieldElement :=
  ⟨(a.val + b.val) % P25519⟩

/-- Modelled from the spec: field subtraction. -/
def FieldElement.sub (a b : FieldElement) : FieldElement :=
  ⟨(a.val % P25519 + (P25519 - b.val % P25519)) % P25519⟩

/-- Modelled from the spec: field multiplication. -/
def FieldElement.mul (a b : FieldElement) : FieldElement :=
  ⟨a.val * b.val % P25519⟩

/-- Modelled from the spec: field squaring. -/
def FieldElement.square (a : FieldElement) : FieldElement := a.mul a

/-- Modelled from the spec: multiplication by a small 32-bit constant. -/
def FieldElement.mul32 (a : FieldElement) (c : Nat) : FieldElement :=
  ⟨a.val * c % P25519⟩

/-- Modelled from the spec: field inversion (Fermat exponentiation). -/
def FieldElement.invert (a : FieldElement) : FieldElement :=
  ⟨powMod (a.val % P25519) (P25519 - 2) P25519⟩

/-- Modelled from the spec: the constant-time conditional swap of two field
elements, swapping exactly when the flag is 1. -/
def FieldElement.swap (a b : FieldElement) (flag : Nat) :
    FieldElement × FieldElement :=
  if flag = 1 then (b, a) else (a, b)

/-- Embeds the clamped scratch copy made at the top of `scalarmult`: copy the
first 32 scalar bytes into `t`, clear the low 3 bits of byte 0, clear the
high bit of byte 31, and set the second-highest bit of byte 31. -/
def clamp (n : List Nat) : List Nat :=
  let t := (List.range 32).map (fun i => n.getD i 0)
  let t := t.set 0 (t.getD 0 0 &&& 248)
  let t := t.set 31 (t.getD 31 0 &&& 127)
  let t := t.set 31 (t.getD 31 0 ||| 64)
  t

/-- One iteration of the Montgomery ladder loop in `scalarmult`, at bit
position `pos`, acting on the state `(x2, z2, x3, z3, swap)`. -/
def ladderStep (t : List Nat) (x1 : FieldElement)
    (st : FieldElement × FieldElement × FieldElement × FieldElement × Nat)
    (pos : Nat) :
    FieldElement × FieldElement × FieldElement × FieldElement × Nat :=
  let (x2, z2, x3, z3, swap) := st
  let bit := (t.getD (pos / 8) 0 >>> (pos % 8)) &&& 1
  let swap := swap ^^^ bit
  let (x2, x3) := x2.swap x3 swap
  let (z2, z3) := z2.swap z3 swap
  let swap := bit
  let a := x2.add z2
  let b := x2.sub z2
  let aa := a.square
  let bb := b.square
  let x2 := aa.mul bb
  let e := aa.sub bb
  let da := (x3.sub z3).mul a
  let cb := (x3.add z3).mul b
  let x3 := (da.add cb).square
  let z3 := ((da.sub cb).square).mul x1
  let z2 := ((e.mul32 121666).add bb).mul e
  (x2, z2, x3, z3, swap)

/-- Embeds `scalarmult`: clamp a scratch copy of the scalar, decode the
point, run the 255-step constant-time Montgomery ladder from the most
significant bit downward, apply the final conditional swap, and return
`x2 / z2` encoded as 32 little-endian bytes. -/
def scalarmult (n p : List Nat) : List Nat :=
  let t := clamp n
  let x1 := FieldElement.from_bytes p
  let st := ((List.range 255).reverse).foldl (ladderStep t x1)
    (FieldElement.one, FieldElement.zero, x1, FieldElement.one, 0)
  let (x2, z2, x3, z3, swap) := st
  let (x2, x3) := x2.swap x3 swap
  let (z2, z3) := z2.swap z3 swap
  let _ := (x3, z3)
  ((z2.invert).mul x2).to_bytes

/-- Embeds the constant `BASE`: the little-endian encoding of 9. -/
def BASE : List Nat := 9 :: List.replicate 31 0

/-- Embeds `scalarmult_base`. -/
def scalarmult_base (x : List Nat) : List Nat := scalarmult x BASE

/-- Embeds the `InvalidKey` error of `PrivateKey::new`. -/
inductive InvalidKey
  | invalidKey
  deriving DecidableEq

/-- Embeds the `PrivateKey` struct: the owned 32-byte buffer. -/
structure PrivateKey where
  key : List Nat
  deriving DecidableEq

/-- Embeds `PrivateKey::new`: fails unless the buffer is exactly 32 bytes. -/
def PrivateKey.new (key : List Nat) : Except InvalidKey PrivateKey :=
  if key.length ≠ 32 then .error .invalidKey else .ok ⟨key⟩

/-- Embeds `PrivateKey::public_key` with its receiver state made explicit:
the method borrows the key immutably, so the returned state is the receiver
itself. -/
def PrivateKey.publicKeyS (self : PrivateKey) : List Nat × PrivateKey :=
  (scalarmult_base self.key, self)

/-- Embeds `PrivateKey::exchange` with its receiver state made explicit. -/
def PrivateKey.exchangeS (self : PrivateKey) (pub : List Nat) :
    List Nat × PrivateKey :=
  (scalarmult self.key pub, self)

/-- The per-block counter addition `counter + index as u32` of
`ChaCha20::encrypt` with its overflow branch explicit (a checked 32-bit
addition). -/
def addU32 (c i : Nat) : Option Nat :=
  if c + i ≤ 2 ^ 32 - 1 then some (c + i) else none

/-- `ChaCha20::encrypt`'s loop with the per-block counter addition's overflow
branch explicit: the result is `none` exactly when some block's counter
addition leaves the 32-bit range. -/
def ChaCha20.encryptCheckedGo (key nonce : List Nat) (counter : Nat) :
    Nat → List Nat → Option (List Nat)
  | _, [] => some []
  | i, x :: xs =>
    match addU32 counter i with
    | none => none
    | some ctr =>
      match ChaCha20.encryptCheckedGo key nonce counter (i + 1)
          ((x :: xs).drop 64) with
      | none => none
      | some rest =>
        some (List.zipWith (fun b k => k ^^^ b) ((x :: xs).take 64)
          (ChaCha20.keystream key nonce ctr) ++ rest)
  termination_by _ l => l.length
  decreasing_by simp [List.length_drop]; omega

/-- `ChaCha20::encrypt` with checked per-block counter additions. -/
def ChaCha20.encryptChecked (key p nonce : List Nat) (c : Nat) :
    Option (List Nat) :=
  ChaCha20.encryptCheckedGo key nonce c 0 p

/-- The number of 64-byte blocks of a plaintext. -/
def numBlocks (p : List Nat) : Nat := (p.length + 63) / 64

/-- Reference quarter round, written from the specification: the
add / xor / rotate-16 / 12 / 8 / 7 sequence on a quadruple, with wrapping
32-bit additions. -/
def refQuarterRound (q : Nat × Nat × Nat × Nat) : Nat × Nat × Nat × Nat :=
  let a := q.1
  let b := q.2.1
  let c := q.2.2.1
  let d := q.2.2.2
  let a := (a + b) % 2 ^ 32
  let d := rotl32 (d ^^^ a) 16
  let c := (c + d) % 2 ^ 32
  let b := rotl32 (b ^^^ c) 12
  let a := (a + b) % 2 ^ 32
  let d := rotl32 (d ^^^ a) 8
  let c := (c + d) % 2 ^ 32
  let b := rotl32 (b ^^^ c) 7
  (a, b, c, d)

/-- Reference double round, written from the specification: one quarter
round on each of the four columns, then one on each of the four diagonals of
the 16-word state. -/
def refDoubleRound (s : List Nat) : List Nat :=
  match s with
  | [x0, x1, x2, x3, x4, x5, x6, x7, x8, x9, x10, x11, x12, x13, x14, x15] =>
    let (y0, y4, y8, y12) := refQuarterRound (x0, x4, x8, x12)
    let (y1, y5, y9, y13) := refQuarterRound (x1, x5, x9, x13)
    let (y2, y6, y10, y14) := refQuarterRound (x2, x6, x10, x14)
    let (y3, y7, y11, y15) := refQuarterRound (x3, x7, x11, x15)
    let (z0, z5, z10, z15) := refQuarterRound (y0, y5, y10, y15)
    let (z1, z6, z11, z12) := refQuarterRound (y1, y6, y11, y12)
    let (z2, z7, z8, z13) := refQuarterRound (y2, y7, y8, y13)
    let (z3, z4, z9, z14) := refQuarterRound (y3, y4, y9, y14)
    [z0, z1, z2, z3, z4, z5, z6, z7, z8, z9, z10, z11, z12, z13, z14, z15]
  | t => t

/-- The ASCII bytes of the constant string used to build the four fixed state
words (the spec's "expand 32-byte k"). -/
def expandKeyBytes : List Nat :=
  [0x65, 0x78, 0x70, 0x61, 0x6e, 0x64, 0x20, 0x33,
   0x32, 0x2d, 0x62, 0x79, 0x74, 0x65, 0x20, 0x6b]

/-- Reference word extraction, written from the specification: the first `k`
little-endian 32-bit words of a byte string. -/
def refWords (l : List Nat) (k : Nat) : List Nat :=
  (List.range k).map (fun i => leNum ((l.drop (4 * i)).take 4))

/-- Reference serialization of a word list as little-endian 32-bit words. -/
def refSerialize (ws : List Nat) : List Nat := ws.flatMap (toLeBytes 4)

/-- Reference ChaCha20 keystream block, written from the specification:
constants from the ASCII string, eight key words, the counter at word 12,
three nonce words; 10 double rounds; word-wise addition mod 2^32 of the
result to the initial state; 64 bytes of little-endian serialization. -/
def refKeystream (key nonce : List Nat) (counter : Nat) : List Nat :=
  let input := refWords expandKeyBytes 4 ++ refWords key 8 ++ [counter] ++
    refWords nonce 3
  let working := refDoubleRound^[10] input
  refSerialize (List.zipWith (fun a b => (a + b) % 2 ^ 32) input working)

/-- Reference HChaCha20, written from the specification: the same state setup
except the 16-byte nonce fills words 12 to 15 (no counter word), the same
10 double rounds, and the output is the permuted working words at positions
0 to 3 then 12 to 15 only, serialized little-endian, with no addition of the
input state. -/
def refHChaCha20 (key nonce : List Nat) : List Nat :=
  let input := refWords expandKeyBytes 4 ++ refWords key 8 ++ refWords nonce 4
  let working := refDoubleRound^[10] input
  refSerialize ((List.range 4).map (fun i => working.getD i 0) ++
    (List.range 4).map (fun i => working.getD (12 + i) 0))

/-! ### Length lemmas -/

theorem length_toLeBytes : ∀ n x, (toLeBytes n x).length = n
  | 0, _ => rfl
  | n + 1, x => by simp [toLeBytes, length_toLeBytes n]

theorem length_quarter_round (a b c d : Nat) (s : List Nat) :
    (quarter_round a b c d s).length = s.length := by
  simp [quarter_round, List.length_set]

theorem length_double_round (s : List Nat) :
    (double_round s).length = s.length := by
  simp [double_round, length_quarter_round]

theorem length_iterate_double_round :
    ∀ (n : Nat) (s : List Nat), (double_round^[n] s).length = s.length
  | 0, _ => rfl
  | n + 1, s => by
    rw [Function.iterate_succ_apply, length_iterate_double_round n,
      length_double_round]

theorem length_flatMap_toLeBytes :
    ∀ l : List Nat, (l.flatMap (toLeBytes 4)).length = 4 * l.length
  | [] => rfl
  | x :: xs => by
    simp [List.flatMap_cons, length_toLeBytes, length_flatMap_toLeBytes xs]
    omega

theorem length_keystream (key nonce : List Nat) (c : Nat) :
    (ChaCha20.keystream key nonce c).length = 64 := by
  simp only [ChaCha20.keystream]
  rw [length_flatMap_toLeBytes]
  simp [List.length_zipWith, length_iterate_double_round]

theorem length_encryptGo (key nonce : List Nat) (c : Nat) :
    ∀ (i : Nat) (p : List Nat),
      (ChaCha20.encryptGo key nonce c i p).length = p.length
  | _, [] => by simp [ChaCha20.encryptGo]
  | i, x :: xs => by
    rw [ChaCha20.encryptGo]
    have h := length_encryptGo key nonce c (i + 1) ((x :: xs).drop 64)
    simp only [List.length_append, List.length_zipWith, length_keystream,
      List.length_take, List.length_drop, List.length_cons] at h ⊢
    omega
  termination_by _ l => l.length
  decreasing_by simp [List.length_drop]; omega

theorem length_chacha_encrypt (key p nonce : List Nat) (c : Nat) :
    (ChaCha20.encrypt key p nonce c).length = p.length :=
  length_encryptGo key nonce c 0 p

/-! ### The xor stream is an involution -/

theorem zipWith_xor_cancel :
    ∀ (t ks : List Nat), t.length ≤ ks.length →
      List.zipWith (fun b k => k ^^^ b)
        (List.zipWith (fun b k => k ^^^ b) t ks) ks = t
  | [], _, _ => by simp
  | _ :: _, [], h => by simp at h
  | a :: t, k :: ks, h => by
    have ih := zipWith_xor_cancel t ks (by simpa using h)
    simp only [List.zipWith_cons_cons, ih, List.cons.injEq, and_true]
    rw [← Nat.xor_assoc, Nat.xor_self, Nat.zero_xor]

theorem encryptGo_invol (key nonce : List Nat) (c : Nat) :
    ∀ (i : Nat) (p : List Nat),
      ChaCha20.encryptGo key nonce c i (ChaCha20.encryptGo key nonce c i p) = p
  | _, [] => by simp [ChaCha20.encryptGo]
  | i, x :: xs => by
    rw [ChaCha20.encryptGo]
    set ks := ChaCha20.keystream key nonce ((c + i) % 2 ^ 32) with hks
    set A := List.zipWith (fun b k => k ^^^ b) ((x :: xs).take 64) ks with hA
    set B := ChaCha20.encryptGo key nonce c (i + 1) ((x :: xs).drop 64) with hB
    have hksl : ks.length = 64 := length_keystream key nonce _
    have hAl : A.length = min ((x :: xs).length) 64 := by
      rw [hA]; simp [List.length_zipWith, hksl, List.length_take]
      omega
    have hBl : B.length = (x :: xs).length - 64 := by
      rw [hB, length_encryptGo, List.length_drop]
    have hAne : A ≠ [] := by
      intro hnil
      rw [hnil] at hAl
      simp at hAl
      omega
    obtain ⟨a, A', hA'⟩ : ∃ a A', A = a :: A' := by
      rcases A with _ | ⟨a, A'⟩
      · exact absurd rfl hAne
      · exact ⟨a, A', rfl⟩
    rw [hA']
    rw [show ((a :: A') ++ B) = a :: (A' ++ B) by simp]
    rw [ChaCha20.encryptGo]
    rw [show (a :: (A' ++ B)) = ((a :: A') ++ B) by simp, ← hA']
    have htake : (A ++ B).take 64 = A := by
      rw [List.take_append_eq_append_take]
      rcases le_or_lt 64 ((x :: xs).length) with hle | hlt
      · have : A.length = 64 := by omega
        simp [this]
      · have hB0 : B = [] := by
          have : B.length = 0 := by omega
          exact List.eq_nil_of_length_eq_zero this
        have : A.length ≤ 64 := by omega
        simp [hB0, List.take_of_length_le this]
    have hdrop : (A ++ B).drop 64 = B := by
      rw [List.drop_append_eq_append_drop]
      rcases le_or_lt 64 ((x :: xs).length) with hle | hlt
      · have : A.length = 64 := by omega
        simp [this]
      · have hB0 : B = [] := by
          have : B.length = 0 := by omega
          exact List.eq_nil_of_length_eq_zero this
        have : A.length ≤ 64 := by omega
        simp [hB0, List.drop_of_length_le this]
    rw [htake, hdrop, hA]
    rw [zipWith_xor_cancel _ _ (by simp [hksl, List.length_take])]
    rw [hB, encryptGo_invol key nonce c (i + 1) ((x :: xs).drop 64)]
    exact List.take_append_drop 64 (x :: xs)
  termination_by _ l => l.length
  decreasing_by simp [List.length_drop]; omega

theorem chacha_encrypt_invol (key p nonce : List Nat) (c : Nat) :
    ChaCha20.encrypt key (ChaCha20.encrypt key p nonce c) nonce c = p :=
  encryptGo_invol key nonce c 0 p

theorem length_tag (p : Poly1305) : p.tag.length = 16 := by
  simp [Poly1305.tag, poly1305Mac, length_toLeBytes]

/-- The AEAD round trip for the 12-byte-nonce composer, for any nonempty
plaintext: decryption of `ciphertext ++ tag` recomputes the same tag over the
same absorbed stream, so verification succeeds, and the xor stream is an
involution. -/
theorem aead_roundtrip (key nonce aead p : List Nat) (c : Nat) (hp : p ≠ []) :
    (ChaCha20Poly1305.new key).decrypt
      ((ChaCha20Poly1305.new key).encrypt p nonce aead c) nonce aead c =
      .ok p := by
  have hpl : 1 ≤ p.length := List.length_pos.mpr hp
  simp only [ChaCha20Poly1305.encrypt, ChaCha20Poly1305.decrypt,
    ChaCha20Poly1305.new]
  set ct := ChaCha20.encrypt key p nonce c with hct
  have hctl : ct.length = p.length := length_chacha_encrypt key p nonce c
  set P := ((((Poly1305.new ((ChaCha20.keystream key nonce 0).take 32)).update
    aead true).update ct true).update (toLeBytes 8 aead.length) false).update
    (toLeBytes 8 ct.length) false with hP
  have htl : (Poly1305.tag P).length = 16 := length_tag P
  have hlen : (ct ++ P.tag).length = p.length + 16 := by
    simp [List.length_append, htl, hctl]
  rw [if_neg (by omega)]
  have hsub : (ct ++ P.tag).length - 16 = ct.length := by omega
  rw [hsub, List.take_left, List.drop_left]
  have hver : Poly1305.verify P P.tag = true := by
    simp [Poly1305.verify]
  rw [if_pos hver, hct, chacha_encrypt_invol]

/-- C1's statement fails on the empty plaintext: encryption of the empty
string is the bare 16-byte tag, which decrypt rejects as too short instead of
returning the empty plaintext. -/
theorem claim1_counterexample :
    (ChaCha20Poly1305.new (List.replicate 32 0)).decrypt
      ((ChaCha20Poly1305.new (List.replicate 32 0)).encrypt []
        (List.replicate 12 0) [] 1) (List.replicate 12 0) [] 1 =
      .error .invalidCiphertext := by
  simp only [ChaCha20Poly1305.encrypt, ChaCha20Poly1305.decrypt,
    ChaCha20Poly1305.new, ChaCha20.encrypt, ChaCha20.encryptGo]
  rw [if_pos]
  rw [List.nil_append, length_tag]
  omega

/-- C1 (amended): for every 32-byte key, nonces of the correct lengths,
associated data, 32-bit counter, and every NONEMPTY plaintext, decrypting the
output of encrypt with the same parameters returns exactly the plaintext, for
both composers (the empty plaintext is rejected by the 17-byte minimum-length
check of decrypt). -/
theorem claim1_roundtrip (key nonce12 nonce24 aead p : List Nat) (c : Nat)
    (hk : key.length = 32) (h12 : nonce12.length = 12)
    (h24 : nonce24.length = 24) (hp : p ≠ []) (hc : c < 2 ^ 32) :
    (ChaCha20Poly1305.new key).decrypt
        ((ChaCha20Poly1305.new key).encrypt p nonce12 aead c)
        nonce12 aead c = .ok p ∧
      (XChaCha20Poly1305.new key).decrypt
        ((XChaCha20Poly1305.new key).encrypt p nonce24 aead c)
        nonce24 aead c = .ok p := by
  refine ⟨aead_roundtrip key nonce12 aead p c hp, ?_⟩
  simp only [XChaCha20Poly1305.encrypt, XChaCha20Poly1305.decrypt]
  rw [aead_roundtrip _ _ aead p c hp]

/-- C1 witness: a concrete round trip through both composers. -/
theorem claim1_roundtrip_witness :
    (ChaCha20Poly1305.new (List.replicate 32 0)).decrypt
        ((ChaCha20Poly1305.new (List.replicate 32 0)).encrypt [7]
          (List.replicate 12 0) [] 1) (List.replicate 12 0) [] 1 = .ok [7] ∧
      (XChaCha20Poly1305.new (List.replicate 32 0)).decrypt
        ((XChaCha20Poly1305.new (List.replicate 32 0)).encrypt [7]
          (List.replicate 24 0) [] 1) (List.replicate 24 0) [] 1 = .ok [7] :=
  claim1_roundtrip (List.replicate 32 0) (List.replicate 12 0)
    (List.replicate 24 0) [] [7] 1 (by decide) (by decide) (by decide)
    (by decide) (by decide)

/-- C2: decrypt fails with the ciphertext-too-short error exactly when its
input is 16 bytes or shorter than 17 bytes overall; in that case the result
is the same for every key, reflecting that the guard fires before any
keystream computation. -/
theorem claim2_short_input (key nonce aead text : List Nat) (c : Nat) :
    ((ChaCha20Poly1305.new key).decrypt text nonce aead c =
        .error .invalidCiphertext ↔ text.length < 17) ∧
      (text.length < 17 → ∀ key₂ : List Nat,
        (ChaCha20Poly1305.new key₂).decrypt text nonce aead c =
          .error .invalidCiphertext) := by
  constructor
  · simp only [ChaCha20Poly1305.decrypt, ChaCha20Poly1305.new]
    by_cases h : text.length < 17
    · simp [h]
    · rw [if_neg h]
      split <;> simp [h]
  · intro h key₂
    simp [ChaCha20Poly1305.decrypt, ChaCha20Poly1305.new, h]

/-- C2 witness: a 5-byte input is rejected as too short, for two different
keys. -/
theorem claim2_short_input_witness :
    (ChaCha20Poly1305.new (List.replicate 32 3)).decrypt (List.replicate 5 0)
      (List.replicate 12 0) [] 1 = .error .invalidCiphertext :=
  (claim2_short_input (List.replicate 32 0) (List.replicate 12 0) []
    (List.replicate 5 0) 1).2 (by decide) (List.replicate 32 3)

/-- C3: for every input of at least 17 bytes, decrypt returns plaintext
exactly when the recomputed tag over (associated data, all but the last 16
bytes of the input) verifies against the last 16 bytes of the input; on
mismatch it returns the authentication error and no plaintext bytes, and on
match it returns the complete xor-decryption of the ciphertext part, never a
portion of it. -/
theorem claim3_auth_gate (key nonce aead text ct tg : List Nat)
    (P : Poly1305) (c : Nat) (h : 17 ≤ text.length)
    (hct : ct = text.take (text.length - 16))
    (htg : tg = text.drop (text.length - 16))
    (hP : P = ((((Poly1305.new ((ChaCha20.keystream key nonce 0).take
      32)).update aead true).update ct true).update
      (toLeBytes 8 aead.length) false).update (toLeBytes 8 ct.length) false) :
    (P.verify tg = true →
        (ChaCha20Poly1305.new key).decrypt text nonce aead c =
          .ok (ChaCha20.encrypt key ct nonce c)) ∧
      (P.verify tg = false →
        (ChaCha20Poly1305.new key).decrypt text nonce aead c =
          .error .invalidMac) ∧
      ((∃ pt, (ChaCha20Poly1305.new key).decrypt text nonce aead c = .ok pt)
        ↔ P.verify tg = true) := by
  subst hct htg hP
  have hd : (ChaCha20Poly1305.new key).decrypt text nonce aead c =
      if ((((Poly1305.new ((ChaCha20.keystream key nonce 0).take
          32)).update aead true).update (text.take (text.length - 16))
          true).update (toLeBytes 8 aead.length) false).update
          (toLeBytes 8 (text.take (text.length - 16)).length) false |>.verify
          (text.drop (text.length - 16)) then
        .ok (ChaCha20.encrypt key (text.take (text.length - 16)) nonce c)
      else .error .invalidMac := by
    simp only [ChaCha20Poly1305.decrypt, ChaCha20Poly1305.new]
    rw [if_neg (by omega)]
  rw [hd]
  cases hv : ((((Poly1305.new ((ChaCha20.keystream key nonce 0).take
      32)).update aead true).update (text.take (text.length - 16))
      true).update (toLeBytes 8 aead.length) false).update
      (toLeBytes 8 (text.take (text.length - 16)).length) false |>.verify
      (text.drop (text.length - 16)) with
  | true => simp
  | false => simp

set_option maxRecDepth 100000 in
/-- C3 witness: a concrete 17-byte input whose tag does not verify is
rejected with the authentication error. -/
theorem claim3_auth_gate_witness :
    (ChaCha20Poly1305.new (List.replicate 32 0)).decrypt (List.replicate 17 0)
      (List.replicate 12 0) [] 1 = .error .invalidMac :=
  (claim3_auth_gate (List.replicate 32 0) (List.replicate 12 0) []
    (List.replicate 17 0)
    ((List.replicate 17 0).take ((List.replicate 17 0).length - 16))
    ((List.replicate 17 0).drop ((List.replicate 17 0).length - 16))
    (Poly1305.update
      (Poly1305.update
        (Poly1305.update
          (Poly1305.update
            (Poly1305.new ((ChaCha20.keystream (List.replicate 32 0)
              (List.replicate 12 0) 0).take 32))
            [] true)
          ((List.replicate 17 0).take ((List.replicate 17 0).length - 16))
          true)
        (toLeBytes 8 (List.length ([] : List Nat))) false)
      (toLeBytes 8 ((List.replicate 17 0).take
        ((List.replicate 17 0).length - 16)).length) false)
    1 (by decide) rfl rfl rfl).2.1 (by decide)

/-- C4's statement fails on the code: the composer constructors perform no
length validation, so constructing `ChaCha20Poly1305` (and likewise
`XChaCha20Poly1305`) from a 31-byte buffer succeeds and stores that buffer,
rather than failing. -/
theorem claim4_counterexample :
    (ChaCha20Poly1305.new (List.replicate 31 0)).key = List.replicate 31 0 ∧
      (XChaCha20Poly1305.new (List.replicate 31 0)).key =
        List.replicate 31 0 ∧
      (List.replicate 31 0).length ≠ 32 :=
  ⟨rfl, rfl, by decide⟩

/-- C4 (amended): X25519 `PrivateKey` construction fails exactly when the
buffer is not 32 bytes (and succeeds, storing the bytes, when it is); the
`ChaCha20Poly1305` and `XChaCha20Poly1305` constructors never fail and store
the given buffer unchecked, whatever its length. -/
theorem claim4_key_validation (l : List Nat) :
    (PrivateKey.new l = .error .invalidKey ↔ l.length ≠ 32) ∧
      (l.length = 32 → PrivateKey.new l = .ok ⟨l⟩) ∧
      (ChaCha20Poly1305.new l).key = l ∧
      (XChaCha20Poly1305.new l).key = l := by
  refine ⟨?_, ?_, rfl, rfl⟩
  · by_cases h : l.length = 32 <;> simp [PrivateKey.new, h]
  · intro h
    simp [PrivateKey.new, h]

/-- C4 witness: a 33-byte buffer is rejected and a 32-byte one accepted by
`PrivateKey` construction. -/
theorem claim4_key_validation_witness :
    PrivateKey.new (List.replicate 33 0) = .error .invalidKey ∧
      PrivateKey.new (List.replicate 32 0) = .ok ⟨List.replicate 32 0⟩ :=
  ⟨(claim4_key_validation (List.replicate 33 0)).1.mpr (by decide),
    (claim4_key_validation (List.replicate 32 0)).2.1 (by decide)⟩

/-- C7: the extended-nonce composer returns exactly what the 12-byte-nonce
composer returns when keyed with `hchacha20(key, nonce[0..16])` and given the
nonce consisting of 4 zero bytes followed by `nonce[16..24]`, for both
encrypt and decrypt. -/
theorem claim7_delegation (key nonce p t aead : List Nat) (c : Nat)
    (hk : key.length = 32) (hn : nonce.length = 24) :
    (XChaCha20Poly1305.new key).encrypt p nonce aead c =
        (ChaCha20Poly1305.new (hchacha20 key (nonce.take 16))).encrypt p
          (List.replicate 4 0 ++ (nonce.drop 16).take 8) aead c ∧
      (XChaCha20Poly1305.new key).decrypt t nonce aead c =
        (ChaCha20Poly1305.new (hchacha20 key (nonce.take 16))).decrypt t
          (List.replicate 4 0 ++ (nonce.drop 16).take 8) aead c := by
  constructor
  · simp only [XChaCha20Poly1305.encrypt, XChaCha20Poly1305.keyPair,
      XChaCha20Poly1305.new]
  · simp only [XChaCha20Poly1305.decrypt, XChaCha20Poly1305.keyPair,
      XChaCha20Poly1305.new]
    cases hres : (ChaCha20Poly1305.new (hchacha20 key (nonce.take 16))).decrypt
        t (List.replicate 4 0 ++ (nonce.drop 16).take 8) aead c <;>
      rfl

/-- C7 witness: the delegation equalities at a concrete key, nonce, message
and input. -/
theorem claim7_delegation_witness :
    (XChaCha20Poly1305.new (List.replicate 32 0)).encrypt [1]
        (List.replicate 24 2) [] 0 =
      (ChaCha20Poly1305.new (hchacha20 (List.replicate 32 0)
          ((List.replicate 24 2).take 16))).encrypt [1]
        (List.replicate 4 0 ++ ((List.replicate 24 2).drop 16).take 8) [] 0 ∧
      (XChaCha20Poly1305.new (List.replicate 32 0)).decrypt [3]
        (List.replicate 24 2) [] 0 =
      (ChaCha20Poly1305.new (hchacha20 (List.replicate 32 0)
          ((List.replicate 24 2).take 16))).decrypt [3]
        (List.replicate 4 0 ++ ((List.replicate 24 2).drop 16).take 8) [] 0 :=
  claim7_delegation (List.replicate 32 0) (List.replicate 24 2) [1] [3] [] 0
    (by decide) (by decide)

/-- C9: `scalarmult` reads the scalar only through the clamped scratch copy
(so two scalars with equal clamped copies yield equal outputs), the clamp
performs exactly the stated bit operations on bytes 0 and 31 and leaves the
other bytes unchanged, and the key-holding receiver of `public_key` and
`exchange` is returned unchanged. -/
theorem clamp_expand (n : List Nat) :
    clamp n = (n.getD 0 0 &&& 248) :: n.getD 1 0 :: n.getD 2 0 :: n.getD 3 0 ::
      n.getD 4 0 :: n.getD 5 0 :: n.getD 6 0 :: n.getD 7 0 :: n.getD 8 0 ::
      n.getD 9 0 :: n.getD 10 0 :: n.getD 11 0 :: n.getD 12 0 :: n.getD 13 0 ::
      n.getD 14 0 :: n.getD 15 0 :: n.getD 16 0 :: n.getD 17 0 :: n.getD 18 0 ::
      n.getD 19 0 :: n.getD 20 0 :: n.getD 21 0 :: n.getD 22 0 :: n.getD 23 0 ::
      n.getD 24 0 :: n.getD 25 0 :: n.getD 26 0 :: n.getD 27 0 :: n.getD 28 0 ::
      n.getD 29 0 :: n.getD 30 0 :: (n.getD 31 0 &&& 127 ||| 64) :: [] := rfl

theorem claim9_clamp_local (n n₂ p : List Nat) (k : PrivateKey)
    (h : clamp n = clamp n₂) :
    scalarmult n p = scalarmult n₂ p ∧
      (clamp n).getD 0 0 = n.getD 0 0 &&& 248 ∧
      (clamp n).getD 31 0 = n.getD 31 0 &&& 127 ||| 64 ∧
      (∀ i, 0 < i → i < 31 → (clamp n).getD i 0 = n.getD i 0) ∧
      (PrivateKey.publicKeyS k).2 = k ∧
      ∀ q : List Nat, (PrivateKey.exchangeS k q).2 = k := by
  refine ⟨?_, ?_, ?_, ?_, rfl, fun q => rfl⟩
  · simp only [scalarmult, h]
  · rw [clamp_expand]; rfl
  · rw [clamp_expand]; rfl
  · intro i h1 h2
    rw [clamp_expand]
    interval_cases i <;> rfl

/-- C9 witness: two scalars differing only in bits cleared by clamping have
equal clamped copies, hence equal scalar-multiplication outputs. -/
theorem claim9_clamp_local_witness :
    scalarmult (List.replicate 32 0) BASE =
      scalarmult (1 :: List.replicate 31 0) BASE :=
  (claim9_clamp_local (List.replicate 32 0) (1 :: List.replicate 31 0) BASE
    ⟨List.replicate 32 0⟩ (by decide)).1

theorem encryptCheckedGo_eq (key nonce : List Nat) (c : Nat) :
    ∀ (i : Nat) (p : List Nat),
      (∀ j, i ≤ j → j < i + numBlocks p → c + j < 2 ^ 32) →
      ChaCha20.encryptCheckedGo key nonce c i p =
        some (ChaCha20.encryptGo key nonce c i p)
  | _, [], _ => by simp [ChaCha20.encryptCheckedGo, ChaCha20.encryptGo]
  | i, x :: xs, h => by
    have hnb : 1 ≤ numBlocks (x :: xs) := by
      simp [numBlocks]
      omega
    have hci : c + i < 2 ^ 32 := h i le_rfl (by omega)
    have hrel : numBlocks ((x :: xs).drop 64) + 1 ≤ numBlocks (x :: xs) := by
      simp [numBlocks, List.length_drop]
      omega
    have ih := encryptCheckedGo_eq key nonce c (i + 1) ((x :: xs).drop 64)
      (fun j hj1 hj2 => h j (by omega) (by omega))
    rw [ChaCha20.encryptCheckedGo, ChaCha20.encryptGo]
    rw [show addU32 c i = some (c + i) by simp [addU32]; omega]
    rw [ih, Nat.mod_eq_of_lt hci]
  termination_by _ l => l.length
  decreasing_by simp [List.length_drop]; omega

/-- C10: stream encryption uses counter `c + i` for block `i`; whenever
`c` plus the number of 64-byte blocks, minus 1, stays within 32 bits, no
per-block counter addition overflows — the checked embedding takes no
overflow branch and agrees with the wrapping embedding — and when the bound
is violated the addition at the last block leaves the 32-bit range. -/
theorem claim10_counter_no_overflow (key nonce p : List Nat) (c : Nat)
    (hc : c < 2 ^ 32) :
    (c + numBlocks p - 1 ≤ 2 ^ 32 - 1 →
        ChaCha20.encryptChecked key p nonce c =
          some (ChaCha20.encrypt key p nonce c)) ∧
      (2 ^ 32 - 1 < c + numBlocks p - 1 →
        1 ≤ numBlocks p ∧ 2 ^ 32 ≤ c + (numBlocks p - 1)) := by
  constructor
  · intro hb
    exact encryptCheckedGo_eq key nonce c 0 p (fun j hj1 hj2 => by omega)
  · intro hb
    omega

/-- C10 witness: a two-block plaintext at base counter 1 takes no overflow
branch. -/
theorem claim10_counter_no_overflow_witness :
    ChaCha20.encryptChecked (List.replicate 32 0) (List.replicate 65 0)
        (List.replicate 12 0) 1 =
      some (ChaCha20.encrypt (List.replicate 32 0) (List.replicate 65 0)
        (List.replicate 12 0) 1) :=
  (claim10_counter_no_overflow (List.replicate 32 0) (List.replicate 12 0)
    (List.replicate 65 0) 1 (by decide)).1 (by decide)

theorem qr_eq_col0 (x0 x1 x2 x3 x4 x5 x6 x7 x8 x9 x10 x11 x12 x13 x14 x15 : Nat) :
    quarter_round 0 4 8 12 [x0, x1, x2, x3, x4, x5, x6, x7, x8, x9, x10, x11, x12, x13, x14, x15] =
      [(refQuarterRound (x0, x4, x8, x12)).1,
       x1,
       x2,
       x3,
       (refQuarterRound (x0, x4, x8, x12)).2.1,
       x5,
       x6,
       x7,
       (refQuarterRound (x0, x4, x8, x12)).2.2.1,
       x9,
       x10,
       x11,
       (refQuarterRound (x0, x4, x8, x12)).2.2.2,
       x13,
       x14,
       x15] := rfl

theorem qr_eq_col1 (x0 x1 x2 x3 x4 x5 x6 x7 x8 x9 x10 x11 x12 x13 x14 x15 : Nat) :
    quarter_round 1 5 9 13 [x0, x1, x2, x3, x4, x5, x6, x7, x8, x9, x10, x11, x12, x13, x14, x15] =
      [x0,
       (refQuarterRound (x1, x5, x9, x13)).1,
       x2,
       x3,
       x4,
       (refQuarterRound (x1, x5, x9, x13)).2.1,
       x6,
       x7,
       x8,
       (refQuarterRound (x1, x5, x9, x13)).2.2.1,
       x10,
       x11,
       x12,
       (refQuarterRound (x1, x5, x9, x13)).2.2.2,
       x14,
       x15] := rfl

theorem qr_eq_col2 (x0 x1 x2 x3 x4 x5 x6 x7 x8 x9 x10 x11 x12 x13 x14 x15 : Nat) :
    quarter_round 2 6 10 14 [x0, x1, x2, x3, x4, x5, x6, x7, x8, x9, x10, x11, x12, x13, x14, x15] =
      [x0,
       x1,
       (refQuarterRound (x2, x6, x10, x14)).1,
       x3,
       x4,
       x5,
       (refQuarterRound (x2, x6, x10, x14)).2.1,
       x7,
       x8,
       x9,
       (refQuarterRound (x2, x6, x10, x14)).2.2.1,
       x11,
       x12,
       x13,
       (refQuarterRound (x2, x6, x10, x14)).2.2.2,
       x15] := rfl

theorem qr_eq_col3 (x0 x1 x2 x3 x4 x5 x6 x7 x8 x9 x10 x11 x12 x13 x14 x15 : Nat) :
    quarter_round 3 7 11 15 [x0, x1, x2, x3, x4, x5, x6, x7, x8, x9, x10, x11, x12, x13, x14, x15] =
      [x0,
       x1,
       x2,
       (refQuarterRound (x3, x7, x11, x15)).1,
       x4,
       x5,
       x6,
       (refQuarterRound (x3, x7, x11, x15)).2.1,
       x8,
       x9,
       x10,
       (refQuarterRound (x3, x7, x11, x15)).2.2.1,
       x12,
       x13,
       x14,
       (refQuarterRound (x3, x7, x11, x15)).2.2.2] := rfl

theorem qr_eq_diag0 (x0 x1 x2 x3 x4 x5 x6 x7 x8 x9 x10 x11 x12 x13 x14 x15 : Nat) :
    quarter_round 0 5 10 15 [x0, x1, x2, x3, x4, x5, x6, x7, x8, x9, x10, x11, x12, x13, x14, x15] =
      [(refQuarterRound (x0, x5, x10, x15)).1,
       x1,
       x2,
       x3,
       x4,
       (refQuarterRound (x0, x5, x10, x15)).2.1,
       x6,
       x7,
       x8,
       x9,
       (refQuarterRound (x0, x5, x10, x15)).2.2.1,
       x11,
       x12,
       x13,
       x14,
       (refQuarterRound (x0, x5, x10, x15)).2.2.2] := rfl

theorem qr_eq_diag1 (x0 x1 x2 x3 x4 x5 x6 x7 x8 x9 x10 x11 x12 x13 x14 x15 : Nat) :
    quarter_round 1 6 11 12 [x0, x1, x2, x3, x4, x5, x6, x7, x8, x9, x10, x11, x12, x13, x14, x15] =
      [x0,
       (refQuarterRound (x1, x6, x11, x12)).1,
       x2,
       x3,
       x4,
       x5,
       (refQuarterRound (x1, x6, x11, x12)).2.1,
       x7,
       x8,
       x9,
       x10,
       (refQuarterRound (x1, x6, x11, x12)).2.2.1,
       (refQuarterRound (x1, x6, x11, x12)).2.2.2,
       x13,
       x14,
       x15] := rfl

theorem qr_eq_diag2 (x0 x1 x2 x3 x4 x5 x6 x7 x8 x9 x10 x11 x12 x13 x14 x15 : Nat) :
    quarter_round 2 7 8 13 [x0, x1, x2, x3, x4, x5, x6, x7, x8, x9, x10, x11, x12, x13, x14, x15] =
      [x0,
       x1,
       (refQuarterRound (x2, x7, x8, x13)).1,
       x3,
       x4,
       x5,
       x6,
       (refQuarterRound (x2, x7, x8, x13)).2.1,
       (refQuarterRound (x2, x7, x8, x13)).2.2.1,
       x9,
       x10,
       x11,
       x12,
       (refQuarterRound (x2, x7, x8, x13)).2.2.2,
       x14,
       x15] := rfl

theorem qr_eq_diag3 (x0 x1 x2 x3 x4 x5 x6 x7 x8 x9 x10 x11 x12 x13 x14 x15 : Nat) :
    quarter_round 3 4 9 14 [x0, x1, x2, x3, x4, x5, x6, x7, x8, x9, x10, x11, x12, x13, x14, x15] =
      [x0,
       x1,
       x2,
       (refQuarterRound (x3, x4, x9, x14)).1,
       (refQuarterRound (x3, x4, x9, x14)).2.1,
       x5,
       x6,
       x7,
       x8,
       (refQuarterRound (x3, x4, x9, x14)).2.2.1,
       x10,
       x11,
       x12,
       x13,
       (refQuarterRound (x3, x4, x9, x14)).2.2.2,
       x15] := rfl

theorem ref_double_round_eq_vars
    (x0 x1 x2 x3 x4 x5 x6 x7 x8 x9 x10 x11 x12 x13 x14 x15 : Nat) :
    refDoubleRound [x0, x1, x2, x3, x4, x5, x6, x7, x8, x9, x10, x11, x12,
        x13, x14, x15] =
      double_round [x0, x1, x2, x3, x4, x5, x6, x7, x8, x9, x10, x11, x12,
        x13, x14, x15] := by
  simp only [double_round, refDoubleRound]
  rw [qr_eq_col0]
  generalize refQuarterRound (x0, x4, x8, x12) = t0
  obtain ⟨a0, b0, c0, d0⟩ := t0
  rw [qr_eq_col1]
  generalize refQuarterRound (x1, x5, x9, x13) = t1
  obtain ⟨a1, b1, c1, d1⟩ := t1
  rw [qr_eq_col2]
  generalize refQuarterRound (x2, x6, x10, x14) = t2
  obtain ⟨a2, b2, c2, d2⟩ := t2
  rw [qr_eq_col3]
  generalize refQuarterRound (x3, x7, x11, x15) = t3
  obtain ⟨a3, b3, c3, d3⟩ := t3
  rw [qr_eq_diag0]
  generalize refQuarterRound (a0, b1, c2, d3) = t4
  obtain ⟨a4, b4, c4, d4⟩ := t4
  rw [qr_eq_diag1]
  generalize refQuarterRound (a1, b2, c3, d0) = t5
  obtain ⟨a5, b5, c5, d5⟩ := t5
  rw [qr_eq_diag2]
  generalize refQuarterRound (a2, b3, c0, d1) = t6
  obtain ⟨a6, b6, c6, d6⟩ := t6
  rw [qr_eq_diag3]


theorem exists_sixteen (s : List Nat) (hs : s.length = 16) :
    ∃ x0 x1 x2 x3 x4 x5 x6 x7 x8 x9 x10 x11 x12 x13 x14 x15,
      s = [x0, x1, x2, x3, x4, x5, x6, x7, x8, x9, x10, x11, x12, x13, x14,
        x15] := by

  rcases s with _ | ⟨x0, s⟩
  · simp at hs
  rcases s with _ | ⟨x1, s⟩
  · simp at hs
  rcases s with _ | ⟨x2, s⟩
  · simp at hs
  rcases s with _ | ⟨x3, s⟩
  · simp at hs
  rcases s with _ | ⟨x4, s⟩
  · simp at hs
  rcases s with _ | ⟨x5, s⟩
  · simp at hs
  rcases s with _ | ⟨x6, s⟩
  · simp at hs
  rcases s with _ | ⟨x7, s⟩
  · simp at hs
  rcases s with _ | ⟨x8, s⟩
  · simp at hs
  rcases s with _ | ⟨x9, s⟩
  · simp at hs
  rcases s with _ | ⟨x10, s⟩
  · simp at hs
  rcases s with _ | ⟨x11, s⟩
  · simp at hs
  rcases s with _ | ⟨x12, s⟩
  · simp at hs
  rcases s with _ | ⟨x13, s⟩
  · simp at hs
  rcases s with _ | ⟨x14, s⟩
  · simp at hs
  rcases s with _ | ⟨x15, s⟩
  · simp at hs
  rcases s with _ | ⟨x16, s⟩
  · exact ⟨x0, x1, x2, x3, x4, x5, x6, x7, x8, x9, x10, x11, x12, x13, x14, x15, rfl⟩
  · simp at hs

theorem ref_double_round_eq (s : List Nat) (hs : s.length = 16) :
    refDoubleRound s = double_round s := by
  obtain ⟨x0, x1, x2, x3, x4, x5, x6, x7, x8, x9, x10, x11, x12, x13, x14,
    x15, rfl⟩ := exists_sixteen s hs
  exact ref_double_round_eq_vars x0 x1 x2 x3 x4 x5 x6 x7 x8 x9 x10 x11 x12
    x13 x14 x15

theorem ref_iterate_eq :
    ∀ (n : Nat) (s : List Nat), s.length = 16 →
      refDoubleRound^[n] s = double_round^[n] s
  | 0, _, _ => by
    rw [Function.iterate_zero_apply, Function.iterate_zero_apply]
  | n + 1, s, hs => by
    rw [Function.iterate_succ_apply, Function.iterate_succ_apply,
      ref_double_round_eq s hs,
      ref_iterate_eq n (double_round s) (by rw [length_double_round, hs])]

theorem leNum_take_four : ∀ l : List Nat, leNum (l.take 4) = from_le_bytes l
  | [] => by simp [leNum, from_le_bytes]
  | [a] => by simp [leNum, from_le_bytes]
  | [a, b] => by simp [leNum, from_le_bytes]; try ring
  | [a, b, c] => by simp [leNum, from_le_bytes]; try ring
  | a :: b :: c :: d :: l => by
    simp [leNum, from_le_bytes, List.take_succ_cons]
    try ring

theorem refWords_three (l : List Nat) :
    refWords l 3 = [from_le_bytes l, from_le_bytes (l.drop 4),
      from_le_bytes (l.drop 8)] := by
  have h : List.range 3 = [0, 1, 2] := rfl
  rw [refWords, h]
  simp [leNum_take_four]

theorem refWords_four (l : List Nat) :
    refWords l 4 = [from_le_bytes l, from_le_bytes (l.drop 4),
      from_le_bytes (l.drop 8), from_le_bytes (l.drop 12)] := by
  have h : List.range 4 = [0, 1, 2, 3] := rfl
  rw [refWords, h]
  simp [leNum_take_four]

theorem refWords_eight (l : List Nat) :
    refWords l 8 = [from_le_bytes l, from_le_bytes (l.drop 4),
      from_le_bytes (l.drop 8), from_le_bytes (l.drop 12),
      from_le_bytes (l.drop 16), from_le_bytes (l.drop 20),
      from_le_bytes (l.drop 24), from_le_bytes (l.drop 28)] := by
  have h : List.range 8 = [0, 1, 2, 3, 4, 5, 6, 7] := rfl
  rw [refWords, h]
  simp [leNum_take_four]

theorem refConsts_eq :
    refWords expandKeyBytes 4 = [0x61707865, 0x3320646e, 0x79622d32,
      0x6b206574] := by decide

/-- C5: for every 32-byte key, 12-byte nonce and 32-bit counter, the
implementation's keystream block equals the reference definition built from
the specification (constants from the ASCII string, little-endian key,
counter and nonce words, 10 column-then-diagonal double rounds with the
16/12/8/7 quarter round, word-wise feed-forward addition mod 2^32, and
little-endian serialization of 16 words). -/
theorem claim5_keystream_ref (key nonce : List Nat) (c : Nat)
    (hk : key.length = 32) (hn : nonce.length = 12) (hc : c < 2 ^ 32) :
    ChaCha20.keystream key nonce c = refKeystream key nonce c := by
  have hinit : refWords expandKeyBytes 4 ++ refWords key 8 ++ [c] ++
      refWords nonce 3 =
      [0x61707865, 0x3320646e, 0x79622d32, 0x6b206574,
       from_le_bytes key, from_le_bytes (key.drop 4),
       from_le_bytes (key.drop 8), from_le_bytes (key.drop 12),
       from_le_bytes (key.drop 16), from_le_bytes (key.drop 20),
       from_le_bytes (key.drop 24), from_le_bytes (key.drop 28),
       c,
       from_le_bytes nonce, from_le_bytes (nonce.drop 4),
       from_le_bytes (nonce.drop 8)] := by
    rw [refConsts_eq, refWords_eight, refWords_three]
    rfl
  rw [ChaCha20.keystream, refKeystream, refSerialize, hinit]
  rw [ref_iterate_eq 10 _ (by rfl)]
  rfl

/-- C5 witness: the equality at the RFC 7539 key, nonce and counter. -/
theorem claim5_keystream_ref_witness :
    ChaCha20.keystream (List.range 32)
        [0, 0, 0, 0, 0, 0, 0, 0x4a, 0, 0, 0, 0] 1 =
      refKeystream (List.range 32)
        [0, 0, 0, 0, 0, 0, 0, 0x4a, 0, 0, 0, 0] 1 :=
  claim5_keystream_ref (List.range 32) [0, 0, 0, 0, 0, 0, 0, 0x4a, 0, 0, 0, 0]
    1 (by decide) (by decide) (by decide)

/-- C6: for every 32-byte key and 16-byte nonce, `hchacha20` equals the
reference definition built from the specification: the ChaCha state with the
16-byte nonce in words 12 to 15 and no counter word, the same 20-round
permutation, and as output only the permuted working words 0 to 3 and
12 to 15, serialized as 8 little-endian words with no feed-forward
addition. -/
theorem claim6_hchacha_ref (key nonce : List Nat)
    (hk : key.length = 32) (hn : nonce.length = 16) :
    hchacha20 key nonce = refHChaCha20 key nonce := by
  have hinit : refWords expandKeyBytes 4 ++ refWords key 8 ++
      refWords nonce 4 =
      [0x61707865, 0x3320646e, 0x79622d32, 0x6b206574,
       from_le_bytes key, from_le_bytes (key.drop 4),
       from_le_bytes (key.drop 8), from_le_bytes (key.drop 12),
       from_le_bytes (key.drop 16), from_le_bytes (key.drop 20),
       from_le_bytes (key.drop 24), from_le_bytes (key.drop 28),
       from_le_bytes nonce, from_le_bytes (nonce.drop 4),
       from_le_bytes (nonce.drop 8), from_le_bytes (nonce.drop 12)] := by
    rw [refConsts_eq, refWords_eight, refWords_four]
    rfl
  rw [hchacha20, refHChaCha20, refSerialize, hinit]
  rw [ref_iterate_eq 10 _ (by rfl)]
  obtain ⟨x0, x1, x2, x3, x4, x5, x6, x7, x8, x9, x10, x11, x12, x13, x14,
    x15, hw⟩ := exists_sixteen (double_round^[10]
      [0x61707865, 0x3320646e, 0x79622d32, 0x6b206574,
       from_le_bytes key, from_le_bytes (key.drop 4),
       from_le_bytes (key.drop 8), from_le_bytes (key.drop 12),
       from_le_bytes (key.drop 16), from_le_bytes (key.drop 20),
       from_le_bytes (key.drop 24), from_le_bytes (key.drop 28),
       from_le_bytes nonce, from_le_bytes (nonce.drop 4),
       from_le_bytes (nonce.drop 8), from_le_bytes (nonce.drop 12)])
      (by rw [length_iterate_double_round]; rfl)
  rw [show (ROUNDS / 2) = 10 from rfl, hw]
  rfl

/-- C6 witness: the equality at the draft test-vector key and nonce. -/
theorem claim6_hchacha_ref_witness :
    hchacha20 (List.range 32)
        [0, 0, 0, 9, 0, 0, 0, 0x4a, 0, 0, 0, 0, 0x31, 0x41, 0x59, 0x27] =
      refHChaCha20 (List.range 32)
        [0, 0, 0, 9, 0, 0, 0, 0x4a, 0, 0, 0, 0, 0x31, 0x41, 0x59, 0x27] :=
  claim6_hchacha_ref (List.range 32)
    [0, 0, 0, 9, 0, 0, 0, 0x4a, 0, 0, 0, 0, 0x31, 0x41, 0x59, 0x27]
    (by decide) (by decide)

/-- The repository's `test_hchacha` vector: `hchacha20` on the 0..31 key and
the draft nonce yields the published 32-byte subkey. -/
theorem hchacha20_test_vector :
    hchacha20 (List.range 32)
        [0, 0, 0, 9, 0, 0, 0, 0x4a, 0, 0, 0, 0, 0x31, 0x41, 0x59, 0x27] =
      [130, 65, 59, 66, 39, 178, 123, 254, 211, 14, 66, 80, 138, 135, 125,
       115, 160, 249, 228, 213, 138, 116, 168, 83, 193, 46, 196, 19, 38, 211,
       236, 220] := by decide

end Raycrypt
